import Mathlib

set_option linter.unusedVariables false

/-! Verification of the batch submission engine implemented in
`scripts/create_all_issues_smart.py`: per-item submission with bounded
in-place retries and backoff (`create_single_issue`), batch processing
(`create_issues_batch`, `calculate_batches` and the batch loop of
`main`, lines 648 and 669-697), failure aggregation, the multi-round
retry pass (`retry_failed_issues`), the numbered-title preparation
(`prepare_issue_data`) and the final summary of `main`.  Every
definition is translated from the script; the theorems follow all the
definitions. -/

variable {α : Type*} {β : Type*}

/-- Python constant `REQUEST_DELAY = 0.5` (seconds between sequential
item submissions). -/
def REQUEST_DELAY : ℚ := 1/2

/-- Python constant `RETRY_DELAY = 2.0` (base seconds for retry backoff). -/
def RETRY_DELAY : ℚ := 2

/-- Python constant `MAX_RETRIES = 3` (in-place attempts per item). -/
def MAX_RETRIES : ℕ := 3

/-- Python constant `BATCH_SIZE = 30` (items per batch). -/
def BATCH_SIZE : ℕ := 30

/-- Observable outcome of one `session.post` call inside
`create_single_issue`: an HTTP response carrying a status code, or a
raised exception (network failure / timeout), which the `except` arm of
the loop handles. -/
inductive HttpEvent where
  | status (code : ℕ)
  | exn
  deriving DecidableEq, Repr

/-- Trace of one `create_single_issue` call: whether a `201` was
obtained (the function returns the created issue exactly in that case),
how many `session.post` calls were issued, and the list of retry-backoff
sleep durations, in order.  The pre-submission pacing delay of line 107
is not part of this trace; it is modelled separately. -/
structure SubmitTrace where
  success : Bool
  attempts : ℕ
  sleeps : List ℚ
  deriving DecidableEq, Repr

/-- The retry loop of `create_single_issue` (lines 110-145), recursing
over the list of remaining attempt indices (`for attempt in
range(MAX_RETRIES)`).  `resp attempt` is what the HTTP call of that
attempt observes.  Branches, in source order: status `201` returns the
issue; `403` sleeps `RETRY_DELAY * (attempt + 1)` and continues;
`>= 500` sleeps the same amount and continues; any other status breaks
out of the loop; an exception sleeps and continues only while
`attempt < MAX_RETRIES - 1`. -/
def submitLoop (resp : ℕ → HttpEvent) (maxRetries : ℕ) (retryDelay : ℚ) :
    List ℕ → SubmitTrace
  | [] => ⟨false, 0, []⟩
  | attempt :: rest =>
    match resp attempt with
    | .status c =>
      if c = 201 then
        ⟨true, 1, []⟩
      else if c = 403 ∨ 500 ≤ c then
        let t := submitLoop resp maxRetries retryDelay rest
        ⟨t.success, t.attempts + 1, retryDelay * ((attempt : ℚ) + 1) :: t.sleeps⟩
      else
        ⟨false, 1, []⟩
    | .exn =>
      if attempt < maxRetries - 1 then
        let t := submitLoop resp maxRetries retryDelay rest
        ⟨t.success, t.attempts + 1, retryDelay * ((attempt : ℚ) + 1) :: t.sleeps⟩
      else
        ⟨false, 1, []⟩

/-- Function `create_single_issue` (lines 102-146), abstracted over the
responses the remote API produces for each attempt. -/
def create_single_issue (resp : ℕ → HttpEvent) : SubmitTrace :=
  submitLoop resp MAX_RETRIES RETRY_DELAY (List.range MAX_RETRIES)

/-- The pre-submission pacing guard of `create_single_issue`
(lines 106-108): `time.sleep(REQUEST_DELAY)` runs iff `index > 0`,
where `index` is the item's position within its batch. -/
def preDelayInvoked (index : ℕ) : Bool := 0 < index

/-- Function `calculate_batches` (lines 98-100):
`math.ceil(total_count / batch_size)`, with the float division
idealized as exact rational division. -/
def calculate_batches (total_count batch_size : ℕ) : ℕ :=
  ⌈(total_count : ℚ) / (batch_size : ℚ)⌉₊

/-- The slices taken by the batch loop of `main` (lines 669-672): batch
`k` is `all_requests[k*b : min(k*b + b, n)]`, here for an arbitrary
number `m` of batches. -/
def batchSlices (l : List α) (b m : ℕ) : List (List α) :=
  (List.range m).map (fun k => (l.drop (k * b)).take b)

/-- The batches `main` actually processes: `m = calculate_batches n b`
(line 648 with line 669), with the batch size kept as a parameter. -/
def batchRun (l : List α) (b : ℕ) : List (List α) :=
  batchSlices l b (calculate_batches l.length b)

/-- What one iteration of the loop of `create_issues_batch`
(lines 159-168) observes for an item: `create_single_issue` returned an
issue (`ok`), returned `None` (`failed`), or the call itself raised an
exception, caught by the `except` arm of line 166 (`raised`). -/
inductive BatchOutcome (β : Type*) where
  | ok (issue : β)
  | failed
  | raised
  deriving DecidableEq, Repr

/-- Truth of `if issue:` at line 162 for the observed outcome. -/
def BatchOutcome.isOk : BatchOutcome β → Bool
  | .ok _ => true
  | .failed => false
  | .raised => false

/-- The issue object returned by `create_single_issue`, when any. -/
def BatchOutcome.issue? : BatchOutcome β → Option β
  | .ok y => some y
  | .failed => none
  | .raised => none

/-- Function `create_issues_batch` (lines 148-171): processes the batch
items sequentially; a returned issue is appended to `created_issues`,
and on `None` or on an exception the item itself is appended to
`failed_issues`.  `g x` is the outcome the submission of `x` produces.
Returns `(created_issues, failed_issues)`. -/
def create_issues_batch (g : α → BatchOutcome β) : List α → List β × List α
  | [] => ([], [])
  | x :: xs =>
    let r := create_issues_batch g xs
    match g x with
    | .ok y => (y :: r.1, r.2)
    | .failed => (r.1, x :: r.2)
    | .raised => (r.1, x :: r.2)

/-- The round loop of `retry_failed_issues` (lines 587-601), recursing
over the list of round numbers.  At the top of a round the loop breaks
when nothing remains (line 588); otherwise the whole remaining list is
processed by one `create_issues_batch` call (line 596), the successes
are appended to `retry_created` (line 600) and the failures become the
next round's remaining list (line 601).  `g r x` is the outcome the
submission of `x` produces in round `r`.  Returns `(retry_created,
remaining_failed)`; the function reports `remaining_failed` as the
issues that could not be created after all retries (lines 608-614). -/
def retryLoop (g : ℕ → α → BatchOutcome β) : List ℕ → List α → List β × List α
  | [], remaining => ([], remaining)
  | r :: rs, remaining =>
    if remaining.isEmpty then ([], remaining)
    else
      let p := create_issues_batch (g r) remaining
      let q := retryLoop g rs p.2
      (p.1 ++ q.1, q.2)

/-- Function `retry_failed_issues` (lines 577-617) with
`max_retry_rounds = m`.  Rounds are numbered `1..m` here so that round
`0` can denote the initial batch pass of `main`. -/
def retry_failed_issues (g : ℕ → α → BatchOutcome β) (m : ℕ) (failed : List α) :
    List β × List α :=
  retryLoop g ((List.range m).map (· + 1)) failed

/-- Aggregation of the per-batch results by `main`
(`all_created_issues.extend(batch_created)` at line 677 and
`all_failed_issues.extend(batch_failed)` at line 684): concatenation in
batch order. -/
def collectResults : List (List β × List α) → List β × List α
  | [] => ([], [])
  | p :: ps => (p.1 ++ (collectResults ps).1, p.2 ++ (collectResults ps).2)

/-- The initial batch pass of `main` (lines 669-684): every batch slice
is run through `create_issues_batch` and the created/failed lists are
aggregated across batches. -/
def mainBatchPass (g : α → BatchOutcome β) (l : List α) (b : ℕ) :
    List β × List α :=
  collectResults ((batchRun l b).map (create_issues_batch g))

/-- The whole run of `main` (lines 664-711): the initial batch pass over
all prepared requests with `BATCH_SIZE`, then `retry_failed_issues`
over the aggregated failures with `m` rounds (the call at line 702 uses
the default `max_retry_rounds = 2`).  Result: (issues created by the
initial pass, issues created by retries, permanently failed items). -/
def runPipeline (g : ℕ → α → BatchOutcome β) (m : ℕ) (items : List α) :
    List β × List β × List α :=
  let p := mainBatchPass (g 0) items BATCH_SIZE
  let q := retry_failed_issues g m p.2
  (p.1, q.1, q.2)

/-- The list of items the run submits in round `r`:
`remainingBefore g items 0 = items` is what the initial batch pass
submits, and `remainingBefore g items (r+1)` is what retry round `r+1`
submits (the still-failed list after round `r`; when it is empty the
round loop breaks, and an empty list is also what this definition
propagates). -/
def remainingBefore (g : ℕ → α → BatchOutcome β) (items : List α) : ℕ → List α
  | 0 => items
  | r + 1 => (create_issues_batch (g r) (remainingBefore g items r)).2

/-- Item `x` fails (no issue returned) in every round `0..r-1`. -/
def failsThrough (g : ℕ → α → BatchOutcome β) (r : ℕ) (x : α) : Bool :=
  (List.range r).all (fun i => !(g i x).isOk)

/-- Modelled from the spec (refinement comparison only): the spec claims
the 403-without-retry-after backoff is `baseRetryDelay * 2^(attempt)`
with ±20% jitter, i.e. a sleep duration anywhere in the closed interval
`[0.8 * base * 2^a, 1.2 * base * 2^a]`. -/
def specJitteredBackoff (base : ℚ) (attempt : ℕ) (d : ℚ) : Prop :=
  4 / 5 * (base * 2 ^ attempt) ≤ d ∧ d ≤ 6 / 5 * (base * 2 ^ attempt)

/-- Truth of "the loop moves on to the next attempt" for an observed
event at a given attempt index: `403` and `>= 500` always continue
(lines 126-134), an exception continues only while
`attempt < MAX_RETRIES - 1` (line 142); `201` returns and any other
status breaks. -/
def continuesAt (maxRetries : ℕ) (e : HttpEvent) (attempt : ℕ) : Bool :=
  match e with
  | .status c => decide (c = 403) || decide (500 ≤ c)
  | .exn => decide (attempt < maxRetries - 1)

/-- Lifting a per-attempt response schedule to the outcome the per-batch
loop observes for one item: `create_issues_batch` appends to `created`
iff `create_single_issue` returned an issue (its trace succeeded). -/
def outcomeOfResp (resp : ℕ → HttpEvent) : BatchOutcome Unit :=
  if (create_single_issue resp).success then BatchOutcome.ok () else
    BatchOutcome.failed

/-- The pacing-delay flags of one batch of length `k`, in item order:
`create_issues_batch` calls `create_single_issue(issue_data, i, ...)`
with `i` the item's position within the batch (line 161), and the
delay guard in `create_single_issue` is `if index > 0` (line 107). -/
def batchDelayFlags (k : ℕ) : List Bool :=
  (List.range k).map preDelayInvoked

/-- The pacing-delay flags of the whole initial pass of `main`, in
submission order: the per-batch flags concatenated over the batch
slices. -/
def runDelayFlags (l : List α) (b : ℕ) : List Bool :=
  ((batchRun l b).map (fun chunk => batchDelayFlags chunk.length)).flatten

/-- Error raised by a Python float division with zero denominator. -/
inductive RunError where
  | zeroDivision
  deriving DecidableEq, Repr

/-- Python division `a / b` with a count as denominator: raises
`ZeroDivisionError` when the count is zero, otherwise exact rational
division (idealizing the float). -/
def pyDiv (a : ℚ) (b : ℕ) : Except RunError ℚ :=
  if b = 0 then Except.error RunError.zeroDivision else Except.ok (a / (b : ℚ))

/-- Observable outcome of `main`: the process exit code and whether
`smart_issue_creation_result.txt` was written. -/
structure MainOutcome where
  exitCode : ℕ
  resultFileWritten : Bool
  deriving DecidableEq, Repr

/-- The summary tail of `main` as a function of the execution time, the
total number of loaded CSV rows and the number of created issues.  With
no rows at all `main` returns 1 before any batch (lines 643-645).
Otherwise it prints the success rate (`len(all_created_issues) /
total_issues * 100`, line 734) and the average per issue
(`execution_time / len(all_created_issues)`, line 737) — both Python
float divisions — and only then opens and writes the result file
(lines 740-752) and returns 0 (line 754); an exception anywhere in the
`try` block is caught at lines 756-759 and `main` returns 1, the file
never having been written. -/
def mainSummary (executionTime : ℚ) (totalIssues createdCount : ℕ) :
    MainOutcome :=
  if totalIssues = 0 then ⟨1, false⟩
  else
    match (do
      let rate ← pyDiv ((createdCount : ℚ)) totalIssues
      let _ ← pyDiv executionTime createdCount
      Except.ok (rate * 100) : Except RunError ℚ) with
    | Except.error _ => ⟨1, false⟩
    | Except.ok _ => ⟨0, true⟩

/-- Python `str.strip()`: drop leading and trailing whitespace. -/
def pyStripL (s : List Char) : List Char :=
  ((s.dropWhile Char.isWhitespace).reverse.dropWhile Char.isWhitespace).reverse

/-- Python `str.strip()` on a Lean `String`. -/
def pyStrip (s : String) : String := String.mk (pyStripL s.toList)

/-- Python `str.startswith(p)`. -/
def strStartsWith (s p : String) : Bool :=
  decide (s.toList.take p.toList.length = p.toList)

/-- Decimal digit character. -/
def digitChar (n : ℕ) : Char := Char.ofNat (48 + n)

/-- Decimal digits of a number, most significant first (fuel-driven so
that it evaluates by kernel reduction). -/
def natDigitsAux : ℕ → ℕ → List Char
  | 0, _ => []
  | fuel + 1, n =>
    if n < 10 then [digitChar n]
    else natDigitsAux fuel (n / 10) ++ [digitChar (n % 10)]

/-- Python `str(n)` for a natural number. -/
def natStr (n : ℕ) : String := String.mk (natDigitsAux (n + 1) n)

/-- Python format `"{:03d}".format(n)`: zero-padded to width 3 (wider
numbers are printed unpadded). -/
def pad3 (n : ℕ) : String :=
  if n < 10 then "00" ++ natStr n
  else if n < 100 then "0" ++ natStr n
  else natStr n

/-- Membership in the regex character class `[\d\s:.]` of lines 539
and 551 (digits, whitespace, colon, dot). -/
def isNumberingChar (c : Char) : Bool :=
  c.isDigit || c.isWhitespace || c = ':' || c = '.'

/-- The title cleanup of lines 534-558: when the stripped title starts
with the type tag (`タスク` or `テスト`), `re.match` of
`tag[\d\s:.]*(.+)` strips the tag and the following run of numbering
characters — greedily, but backtracking one character so that the group
keeps at least one — and the group is stripped again; when nothing
follows the tag the match fails and the whole title is kept.  `(.+)` is
modelled as matching to the end of the string (CSV titles are single
lines). -/
def cleanedTitle (typeTag title : String) : String :=
  if strStartsWith title typeTag then
    let rest := title.toList.drop typeTag.toList.length
    if rest.length = 0 then title
    else
      let run := (rest.takeWhile isNumberingChar).length
      let keep := min run (rest.length - 1)
      pyStrip (String.mk (rest.drop keep))
  else title

/-- Python `s.split(',')` over the character list. -/
def splitCommaAux : List Char → List Char → List String
  | [], acc => [String.mk acc.reverse]
  | c :: rest, acc =>
    if c = ',' then String.mk acc.reverse :: splitCommaAux rest []
    else splitCommaAux rest (c :: acc)

/-- Python `s.split(',')` on a Lean `String`. -/
def splitComma (s : String) : List String := splitCommaAux s.toList []

/-- One CSV row as `prepare_issue_data` reads it (`row.get(key, '')`
for the four keys used). -/
structure Row where
  title : String
  body : String
  labels : String
  difficulty : String
  deriving DecidableEq, Repr

/-- One prepared request body (the `issue_data` dict of lines 566-571). -/
structure IssueData where
  title : String
  body : String
  labels : List String
  difficulty : Option String
  deriving DecidableEq, Repr

/-- Line 524: `'task' if 'task' in labels else 'test'`. -/
def issueTypeOf (labels : List String) : String :=
  if "task" ∈ labels then "task" else "test"

/-- The numbering tag of lines 534-558: `タスク` for tasks, `テスト`
otherwise. -/
def typeTagOf (issueType : String) : String :=
  if issueType = "task" then "タスク" else "テスト"

/-- The numbered loop body of `prepare_issue_data` (lines 526-573),
carrying the 1-based `enumerate` index, which advances on every row,
also on the rows skipped for an empty stripped title.  The Python
`list(set(existing_labels + labels))` (unspecified set order) is
modelled as first-occurrence deduplication of the concatenation. -/
def prepareFrom (issueType : String) (labels : List String) :
    ℕ → List Row → List (IssueData × String)
  | _, [] => []
  | index, row :: rest =>
    let title := pyStrip row.title
    if title = "" then prepareFrom issueType labels (index + 1) rest
    else
      let tag := typeTagOf issueType
      let numbered := tag ++ pad3 index ++ ": " ++ cleanedTitle tag title
      let existing := ((splitComma row.labels).map pyStrip).filter (· ≠ "")
      let difficulty := if issueType = "task" then some (pyStrip row.difficulty)
        else none
      (⟨numbered, pyStrip row.body, (existing ++ labels).eraseDups, difficulty⟩,
        issueType) :: prepareFrom issueType labels (index + 1) rest

/-- Function `prepare_issue_data` (lines 521-575). -/
def prepare_issue_data (issues : List Row) (labels : List String) :
    List (IssueData × String) :=
  prepareFrom (issueTypeOf labels) labels 1 issues

example : create_single_issue (fun _ => .status 422) = ⟨false, 1, []⟩ := by
  norm_num [create_single_issue, submitLoop, MAX_RETRIES, List.range_succ]

example : create_single_issue (fun _ => .status 403) =
    ⟨false, 3, [2, 4, 6]⟩ := by
  norm_num [create_single_issue, submitLoop, MAX_RETRIES, RETRY_DELAY, List.range_succ]

example : create_single_issue (fun _ => .exn) = ⟨false, 3, [2, 4]⟩ := by
  norm_num [create_single_issue, submitLoop, MAX_RETRIES, RETRY_DELAY, List.range_succ]

example : create_single_issue (fun a => if a = 0 then .status 502 else .status 201) =
    ⟨true, 2, [2]⟩ := by
  norm_num [create_single_issue, submitLoop, MAX_RETRIES, RETRY_DELAY, List.range_succ]

theorem calculate_batches_formula (n b : ℕ) (hb : 0 < b) :
    calculate_batches n b = (n + b - 1) / b := by
  rcases Nat.eq_zero_or_pos n with h0 | hn
  · subst h0
    have hz : (b - 1) / b = 0 := Nat.div_eq_of_lt (by omega)
    simp [calculate_batches, hz]
  · have hbq : (0 : ℚ) < (b : ℚ) := by exact_mod_cast hb
    have hq0 : (n + b - 1) / b ≠ 0 := by
      have h1 : 1 ≤ (n + b - 1) / b := (Nat.le_div_iff_mul_le hb).2 (by omega)
      omega
    rw [calculate_batches, Nat.ceil_eq_iff hq0]
    have e := Nat.div_add_mod (n + b - 1) b
    have hm : (n + b - 1) % b < b := Nat.mod_lt _ hb
    constructor
    · rw [lt_div_iff₀ hbq]
      have h1 : (n + b - 1) / b * b < n + b := by rw [Nat.mul_comm]; omega
      have h2 : ((n + b - 1) / b - 1) * b = (n + b - 1) / b * b - b := by
        rw [Nat.sub_mul, Nat.one_mul]
      have h3 : ((n + b - 1) / b - 1) * b < n := by omega
      exact_mod_cast h3
    · rw [div_le_iff₀ hbq]
      have h2 : n ≤ (n + b - 1) / b * b := by rw [Nat.mul_comm]; omega
      exact_mod_cast h2

theorem le_calculate_batches_mul (n b : ℕ) (hb : 0 < b) :
    n ≤ calculate_batches n b * b := by
  rw [calculate_batches_formula n b hb]
  have e := Nat.div_add_mod (n + b - 1) b
  have hm : (n + b - 1) % b < b := Nat.mod_lt _ hb
  rw [Nat.mul_comm]
  omega

theorem mul_lt_of_lt_calculate_batches (n b k : ℕ) (hb : 0 < b)
    (hk : k < calculate_batches n b) : k * b < n := by
  rw [calculate_batches_formula n b hb] at hk
  have e := Nat.div_add_mod (n + b - 1) b
  have hm : (n + b - 1) % b < b := Nat.mod_lt _ hb
  have h1 : (n + b - 1) / b * b < n + b := by rw [Nat.mul_comm]; omega
  have h2 : ((n + b - 1) / b - 1) * b = (n + b - 1) / b * b - b := by
    rw [Nat.sub_mul, Nat.one_mul]
  have h3 : k * b ≤ ((n + b - 1) / b - 1) * b :=
    Nat.mul_le_mul_right b (by omega)
  have hn : 0 < n := by
    by_contra h
    have : n = 0 := by omega
    subst this
    have : (0 + b - 1) / b = 0 := Nat.div_eq_of_lt (by omega)
    omega
  omega

theorem batchSlices_succ (l : List α) (b m : ℕ) :
    batchSlices l b (m + 1) = l.take b :: batchSlices (l.drop b) b m := by
  unfold batchSlices
  rw [List.range_succ_eq_map, List.map_cons, List.map_map]
  simp only [Nat.zero_mul, List.drop_zero]
  congr 1
  apply List.map_congr_left
  intro k hk
  simp only [Function.comp_apply, List.drop_drop]
  congr 2
  rw [Nat.succ_mul]
  omega

theorem batchSlices_join (b : ℕ) :
    ∀ (m : ℕ) (l : List α), l.length ≤ m * b → (batchSlices l b m).flatten = l := by
  intro m
  induction m with
  | zero =>
    intro l h
    simp only [Nat.zero_mul, Nat.le_zero, List.length_eq_zero] at h
    subst h
    rfl
  | succ m ih =>
    intro l h
    rw [batchSlices_succ, List.flatten_cons,
      ih (l.drop b) (by simp only [List.length_drop]; rw [Nat.succ_mul] at h; omega),
      List.take_append_drop]

example : batchRun ([1, 2, 3, 4, 5] : List ℕ) 2 = [[1, 2], [3, 4], [5]] := by
  have h : calculate_batches 5 2 = 3 := by
    rw [calculate_batches_formula 5 2 (by norm_num)]
  have h5 : ([1, 2, 3, 4, 5] : List ℕ).length = 5 := rfl
  unfold batchRun
  rw [h5, h]
  decide

/-- C1: for every input list and every positive batch size, the batch
loop of `main` processes exactly `calculate_batches n b` contiguous
order-preserving chunks; their concatenation in original order is the
input list; every chunk is nonempty and no longer than `b`; and an
empty input yields zero batches. -/
theorem c1_batch_partition (l : List α) (b : ℕ) (hb : 0 < b) :
    (batchRun l b).flatten = l ∧
    (batchRun l b).length = calculate_batches l.length b ∧
    (∀ chunk ∈ batchRun l b, chunk ≠ [] ∧ chunk.length ≤ b) ∧
    (l = [] → batchRun l b = []) := by
  refine ⟨?_, ?_, ?_, ?_⟩
  · exact batchSlices_join b _ l (le_calculate_batches_mul l.length b hb)
  · simp [batchRun, batchSlices]
  · intro chunk hchunk
    simp only [batchRun, batchSlices, List.mem_map, List.mem_range] at hchunk
    obtain ⟨k, hk, rfl⟩ := hchunk
    have hlt : k * b < l.length := mul_lt_of_lt_calculate_batches l.length b k hb hk
    constructor
    · intro hnil
      have : ((l.drop (k * b)).take b).length = 0 := by rw [hnil]; rfl
      simp only [List.length_take, List.length_drop] at this
      omega
    · simp only [List.length_take]
      omega
  · intro h
    subst h
    simp [batchRun, batchSlices, calculate_batches]

/-- Witness for C1 at a concrete input: 5 items with batch size 2. -/
theorem c1_batch_partition_witness :
    (batchRun ([1, 2, 3, 4, 5] : List ℕ) 2).flatten = [1, 2, 3, 4, 5] ∧
    (batchRun ([1, 2, 3, 4, 5] : List ℕ) 2).length = calculate_batches 5 2 :=
  ⟨(c1_batch_partition [1, 2, 3, 4, 5] 2 (by norm_num)).1,
   (c1_batch_partition [1, 2, 3, 4, 5] 2 (by norm_num)).2.1⟩

example :
    create_issues_batch
      (fun n : ℕ => if n % 2 = 0 then BatchOutcome.ok (n + 100) else
        (if n = 1 then BatchOutcome.raised else BatchOutcome.failed))
      [0, 1, 2, 3, 4] = ([100, 102, 104], [1, 3]) := by decide

theorem create_issues_batch_created (g : α → BatchOutcome β) (l : List α) :
    (create_issues_batch g l).1 = l.filterMap (fun x => (g x).issue?) := by
  induction l with
  | nil => rfl
  | cons x xs ih =>
    simp only [create_issues_batch, List.filterMap_cons]
    cases h : g x <;> simp [h, ih, BatchOutcome.issue?]

theorem create_issues_batch_failed (g : α → BatchOutcome β) (l : List α) :
    (create_issues_batch g l).2 = l.filter (fun x => !(g x).isOk) := by
  induction l with
  | nil => rfl
  | cons x xs ih =>
    simp only [create_issues_batch, List.filter_cons]
    cases h : g x <;> simp [h, ih, BatchOutcome.isOk]

theorem create_issues_batch_length (g : α → BatchOutcome β) (l : List α) :
    (create_issues_batch g l).1.length + (create_issues_batch g l).2.length
      = l.length := by
  induction l with
  | nil => rfl
  | cons x xs ih =>
    simp only [create_issues_batch]
    cases h : g x <;> simp only [List.length_cons] <;> omega

theorem create_issues_batch_append (g : α → BatchOutcome β) (l₁ l₂ : List α) :
    create_issues_batch g (l₁ ++ l₂) =
      ((create_issues_batch g l₁).1 ++ (create_issues_batch g l₂).1,
       (create_issues_batch g l₁).2 ++ (create_issues_batch g l₂).2) := by
  induction l₁ with
  | nil => rfl
  | cons x xs ih =>
    simp only [List.cons_append, create_issues_batch]
    cases h : g x <;> simp [ih]

/-- C2: the per-batch loop partitions every batch: the number of created
issues plus the number of failed items equals the batch length; the
failed list is exactly the input items whose submission did not return
an issue (in particular those whose submission raised an exception), in
input order; and the created list collects exactly the issues of the
successful submissions, in input order.  So every input item is
accounted for in exactly one of the two output lists. -/
theorem c2_batch_result_partition (g : α → BatchOutcome β) (l : List α) :
    (create_issues_batch g l).1.length + (create_issues_batch g l).2.length
        = l.length ∧
    (create_issues_batch g l).2 = l.filter (fun x => !(g x).isOk) ∧
    (create_issues_batch g l).1 = l.filterMap (fun x => (g x).issue?) :=
  ⟨create_issues_batch_length g l, create_issues_batch_failed g l,
   create_issues_batch_created g l⟩

theorem failsThrough_succ (g : ℕ → α → BatchOutcome β) (r : ℕ) (x : α) :
    failsThrough g (r + 1) x = (failsThrough g r x && !(g r x).isOk) := by
  unfold failsThrough
  rw [List.range_succ, List.all_append]
  simp

theorem failsThrough_mono (g : ℕ → α → BatchOutcome β) {r r' : ℕ} (h : r ≤ r')
    (x : α) (hx : failsThrough g r' x = true) : failsThrough g r x = true := by
  simp only [failsThrough, List.all_eq_true, List.mem_range] at hx ⊢
  intro i hi
  exact hx i (lt_of_lt_of_le hi h)

theorem retryLoop_length (g : ℕ → α → BatchOutcome β) (rs : List ℕ) :
    ∀ rem : List α,
      (retryLoop g rs rem).1.length + (retryLoop g rs rem).2.length
        = rem.length := by
  induction rs with
  | nil => intro rem; simp [retryLoop]
  | cons r rs ih =>
    intro rem
    by_cases h : rem.isEmpty
    · simp [retryLoop, h]
    · simp only [retryLoop, if_neg h]
      have hb := create_issues_batch_length (g r) rem
      have hq := ih (create_issues_batch (g r) rem).2
      simp only [List.length_append]
      omega

theorem retryLoop_remaining_filter (g : ℕ → α → BatchOutcome β) (items : List α) :
    ∀ (k s : ℕ),
      (retryLoop g ((List.range k).map (· + s))
          (items.filter (fun x => failsThrough g s x))).2
        = items.filter (fun x => failsThrough g (s + k) x) := by
  intro k
  induction k with
  | zero => intro s; simp [retryLoop]
  | succ k ih =>
    intro s
    have hrounds : (List.range (k + 1)).map (· + s)
        = s :: (List.range k).map (· + (s + 1)) := by
      rw [List.range_succ_eq_map, List.map_cons, List.map_map]
      simp only [Nat.zero_add]
      congr 1
      apply List.map_congr_left
      intro i hi
      simp only [Function.comp_apply]
      omega
    rw [hrounds]
    by_cases hfe : (items.filter (fun x => failsThrough g s x)).isEmpty
    · simp only [retryLoop, if_pos hfe]
      rw [List.isEmpty_iff] at hfe
      rw [hfe]
      symm
      rw [List.filter_eq_nil_iff]
      intro x hx
      intro hthrough
      have hxs : x ∈ items.filter (fun x => failsThrough g s x) := by
        rw [List.mem_filter]
        exact ⟨hx, failsThrough_mono g (Nat.le_add_right s (k + 1)) x
          (by simpa using hthrough)⟩
      rw [hfe] at hxs
      exact absurd hxs (List.not_mem_nil x)
    · simp only [retryLoop, if_neg hfe]
      have hfail : (create_issues_batch (g s)
          (items.filter (fun x => failsThrough g s x))).2
          = items.filter (fun x => failsThrough g (s + 1) x) := by
        rw [create_issues_batch_failed, List.filter_filter]
        apply List.filter_congr
        intro x hx
        rw [failsThrough_succ]
        exact Bool.and_comm _ _
      rw [hfail]
      have := ih (s + 1)
      have harith : s + 1 + k = s + (k + 1) := by omega
      rw [harith] at this
      exact this

theorem collectResults_map (g : α → BatchOutcome β) (LL : List (List α)) :
    collectResults (LL.map (create_issues_batch g))
      = create_issues_batch g LL.flatten := by
  induction LL with
  | nil => rfl
  | cons c cs ih =>
    simp only [List.map_cons, collectResults, ih, List.flatten_cons,
      create_issues_batch_append]

theorem mainBatchPass_eq (g : α → BatchOutcome β) (l : List α) (b : ℕ)
    (hb : 0 < b) : mainBatchPass g l b = create_issues_batch g l := by
  unfold mainBatchPass batchRun
  rw [collectResults_map]
  congr 1
  exact batchSlices_join b _ l (le_calculate_batches_mul l.length b hb)

theorem remainingBefore_filter (g : ℕ → α → BatchOutcome β) (items : List α) :
    ∀ r : ℕ, remainingBefore g items r
      = items.filter (fun x => failsThrough g r x) := by
  intro r
  induction r with
  | zero => simp [remainingBefore, failsThrough]
  | succ r ih =>
    show (create_issues_batch (g r) (remainingBefore g items r)).2 = _
    rw [ih, create_issues_batch_failed, List.filter_filter]
    apply List.filter_congr
    intro x hx
    rw [failsThrough_succ]
    exact Bool.and_comm _ _

theorem runPipeline_failed (g : ℕ → α → BatchOutcome β) (m : ℕ)
    (items : List α) :
    (runPipeline g m items).2.2
      = items.filter (fun x => failsThrough g (m + 1) x) := by
  simp only [runPipeline, retry_failed_issues]
  rw [mainBatchPass_eq _ _ _ (by decide : 0 < BATCH_SIZE)]
  have h1 : (create_issues_batch (g 0) items).2
      = items.filter (fun x => failsThrough g 1 x) := by
    rw [create_issues_batch_failed]
    apply List.filter_congr
    intro x hx
    show (!(g 0 x).isOk) = failsThrough g 1 x
    rw [show (1 : ℕ) = 0 + 1 from rfl, failsThrough_succ]
    simp [failsThrough]
  have harith : 1 + m = m + 1 := by omega
  rw [h1, retryLoop_remaining_filter g items m 1, harith]

theorem runPipeline_length (g : ℕ → α → BatchOutcome β) (m : ℕ)
    (items : List α) :
    (runPipeline g m items).1.length + (runPipeline g m items).2.1.length +
      (runPipeline g m items).2.2.length = items.length := by
  show (mainBatchPass (g 0) items BATCH_SIZE).1.length
      + (retry_failed_issues g m (mainBatchPass (g 0) items BATCH_SIZE).2).1.length
      + (retry_failed_issues g m (mainBatchPass (g 0) items BATCH_SIZE).2).2.length
      = items.length
  rw [mainBatchPass_eq _ _ _ (by decide : 0 < BATCH_SIZE)]
  unfold retry_failed_issues
  have h1 := create_issues_batch_length (g 0) items
  have h2 := retryLoop_length g ((List.range m).map (· + 1))
    (create_issues_batch (g 0) items).2
  omega

example :
    runPipeline (fun r x => if x ≤ r then BatchOutcome.ok (x * 10)
      else BatchOutcome.failed) 2 ([0, 1, 2, 3] : List ℕ)
    = ([0], [10, 20], [3]) := by
  have h : calculate_batches 4 30 = 1 := by
    rw [calculate_batches_formula 4 30 (by norm_num)]
  have hlen : ([0, 1, 2, 3] : List ℕ).length = 4 := rfl
  simp only [runPipeline, retry_failed_issues, mainBatchPass, batchRun, hlen,
    BATCH_SIZE, h]
  decide

/-- C3: over the whole run, (i) the permanently-failed list is exactly
the items whose submission failed in the initial pass and in every one
of the `m` retry rounds (so an item is classified permanently failed
only after all rounds over the collected failures have completed, each
round itself running the Submitter's bounded in-place retry loop);
(ii) created-by-initial-pass, created-by-retry and permanently-failed
counts add up to the input count, so each item reaches exactly one
terminal state; (iii) round `r` submits exactly the items that failed
in all rounds before `r`; hence (iv) an item whose submission succeeded
in some round is never submitted again in any later round. -/
theorem c3_terminal_state_once (g : ℕ → α → BatchOutcome β) (m : ℕ)
    (items : List α) :
    (runPipeline g m items).2.2
        = items.filter (fun x => failsThrough g (m + 1) x) ∧
    (runPipeline g m items).1.length + (runPipeline g m items).2.1.length +
        (runPipeline g m items).2.2.length = items.length ∧
    (∀ r : ℕ, remainingBefore g items r
        = items.filter (fun x => failsThrough g r x)) ∧
    (∀ (x : α) (r r' : ℕ), r' < r → (g r' x).isOk = true →
        x ∉ remainingBefore g items r) := by
  refine ⟨runPipeline_failed g m items, runPipeline_length g m items,
    remainingBefore_filter g items, ?_⟩
  intro x r r' hr hok hmem
  rw [remainingBefore_filter g items r] at hmem
  rw [List.mem_filter] at hmem
  have hall := hmem.2
  simp only [failsThrough, List.all_eq_true, List.mem_range] at hall
  have := hall r' hr
  rw [hok] at this
  exact absurd this (by decide)

/-- Witness for C3: an item created in round 0 is not submitted to retry
round 1. -/
theorem c3_terminal_state_once_witness :
    (0 : ℕ) ∉ remainingBefore (fun _ x => BatchOutcome.ok (x + 10))
      ([0] : List ℕ) 1 :=
  (c3_terminal_state_once (fun _ x => BatchOutcome.ok (x + 10)) 2
    [0]).2.2.2 0 1 0 (by decide) rfl

/-- C4: when the first attempt gets a response whose status is not 2xx,
not 403 and below 500 (e.g. 422), `create_single_issue` breaks out of
the retry loop immediately: it returns `None` after exactly one HTTP
request and performs no retry sleep. -/
theorem c4_client_error_aborts (resp : ℕ → HttpEvent) (c : ℕ)
    (h0 : resp 0 = .status c) (h2xx : ¬(200 ≤ c ∧ c ≤ 299)) (h403 : c ≠ 403)
    (h5xx : c < 500) :
    create_single_issue resp = ⟨false, 1, []⟩ := by
  have hc201 : ¬ c = 201 := by omega
  have hcond : ¬ (c = 403 ∨ 500 ≤ c) := by omega
  unfold create_single_issue
  rw [show List.range MAX_RETRIES = [0, 1, 2] from rfl]
  simp only [submitLoop, h0, if_neg hc201, if_neg hcond]

/-- Witness for C4 at the spec's own example status, 422. -/
theorem c4_client_error_aborts_witness :
    create_single_issue (fun _ => .status 422) = ⟨false, 1, []⟩ :=
  c4_client_error_aborts (fun _ => .status 422) 422 rfl (by decide)
    (by decide) (by decide)

/-- C5 counterexample: with every attempt answered `403` (the code never
reads a `retry-after` header), the sleep taken after the third attempt
(attempt index 2) is `RETRY_DELAY * 3 = 6` seconds, which lies outside
the interval `[6.4, 9.6]` that the claimed jittered-exponential formula
`2 * 2^2 ± 20%` allows; the actual backoff is linear and deterministic. -/
theorem c5_counterexample :
    (create_single_issue (fun _ => .status 403)).sleeps[2]? = some 6 ∧
    ¬ specJitteredBackoff RETRY_DELAY 2 6 := by
  constructor
  · have h : create_single_issue (fun _ => .status 403) = ⟨false, 3, [2, 4, 6]⟩ := by
      norm_num [create_single_issue, submitLoop, MAX_RETRIES, RETRY_DELAY,
        List.range_succ]
    rw [h]
    rfl
  · unfold specJitteredBackoff RETRY_DELAY
    norm_num

theorem submitLoop_cons_continue (resp : ℕ → HttpEvent) (mr : ℕ) (rd : ℚ)
    (a : ℕ) (rest : List ℕ) (h : continuesAt mr (resp a) a = true) :
    submitLoop resp mr rd (a :: rest)
      = ⟨(submitLoop resp mr rd rest).success,
         (submitLoop resp mr rd rest).attempts + 1,
         rd * ((a : ℚ) + 1) :: (submitLoop resp mr rd rest).sleeps⟩ := by
  cases he : resp a with
  | status c =>
    rw [he] at h
    simp only [continuesAt, Bool.or_eq_true, decide_eq_true_eq] at h
    have h201 : ¬ c = 201 := by rcases h with h | h <;> omega
    simp only [submitLoop, he, if_neg h201, if_pos h]
  | exn =>
    rw [he] at h
    simp only [continuesAt, decide_eq_true_eq] at h
    simp only [submitLoop, he, if_pos h]

/-- C5 amended: on a `403` observed at attempt `k` (all earlier attempts
having continued the loop), the Submitter sleeps exactly
`RETRY_DELAY * (k + 1)` before the next attempt — linear in the attempt
number, deterministic, with no jitter, and without consulting any
`retry-after` header. -/
theorem c5_amended_backoff_linear (resp : ℕ → HttpEvent) (k : ℕ)
    (hk : k < MAX_RETRIES)
    (hcont : ∀ i, i < k → continuesAt MAX_RETRIES (resp i) i = true)
    (h403 : resp k = .status 403) :
    (create_single_issue resp).sleeps[k]? = some (RETRY_DELAY * ((k : ℚ) + 1)) := by
  have hk3 : k < 3 := hk
  have hstep : ∀ rest : List ℕ, ∀ i, resp i = .status 403 →
      submitLoop resp MAX_RETRIES RETRY_DELAY (i :: rest)
        = ⟨(submitLoop resp MAX_RETRIES RETRY_DELAY rest).success,
           (submitLoop resp MAX_RETRIES RETRY_DELAY rest).attempts + 1,
           RETRY_DELAY * ((i : ℚ) + 1) ::
             (submitLoop resp MAX_RETRIES RETRY_DELAY rest).sleeps⟩ := by
    intro rest i hi
    exact submitLoop_cons_continue resp MAX_RETRIES RETRY_DELAY i rest
      (by rw [hi]; rfl)
  unfold create_single_issue
  rw [show List.range MAX_RETRIES = [0, 1, 2] from rfl]
  interval_cases k
  · rw [hstep [1, 2] 0 h403]
    simp
  · rw [submitLoop_cons_continue resp MAX_RETRIES RETRY_DELAY 0 [1, 2]
      (hcont 0 (by norm_num)), hstep [2] 1 h403]
    simp
  · rw [submitLoop_cons_continue resp MAX_RETRIES RETRY_DELAY 0 [1, 2]
      (hcont 0 (by norm_num)),
      submitLoop_cons_continue resp MAX_RETRIES RETRY_DELAY 1 [2]
      (hcont 1 (by norm_num)), hstep [] 2 h403]
    simp

/-- Witness for the amended C5: a run answered `403` throughout sleeps
`6` seconds after its third attempt. -/
theorem c5_amended_backoff_linear_witness :
    (create_single_issue (fun _ => .status 403)).sleeps[2]?
      = some (RETRY_DELAY * ((2 : ℕ) + 1)) :=
  c5_amended_backoff_linear (fun _ => .status 403) 2 (by decide)
    (fun i _ => by rfl) rfl

theorem submitLoop_sleeps_sublist (resp : ℕ → HttpEvent) (mr : ℕ) (rd : ℚ) :
    ∀ l : List ℕ, List.Sublist (submitLoop resp mr rd l).sleeps
      (l.map (fun a => rd * ((a : ℚ) + 1))) := by
  intro l
  induction l with
  | nil => simp [submitLoop]
  | cons a rest ih =>
    cases he : resp a with
    | status c =>
      by_cases h201 : c = 201
      · simp only [submitLoop, he, if_pos h201]
        exact List.nil_sublist _
      · by_cases hcond : c = 403 ∨ 500 ≤ c
        · simp only [submitLoop, he, if_neg h201, if_pos hcond, List.map_cons]
          exact List.Sublist.cons₂ _ ih
        · simp only [submitLoop, he, if_neg h201, if_neg hcond]
          exact List.nil_sublist _
    | exn =>
      by_cases h : a < mr - 1
      · simp only [submitLoop, he, if_pos h, List.map_cons]
        exact List.Sublist.cons₂ _ ih
      · simp only [submitLoop, he, if_neg h]
        exact List.nil_sublist _

/-- C8: within one `create_single_issue` call, whatever mix of `403`,
5xx and exception events drives the retries, the successive backoff
sleep durations are pairwise non-decreasing in attempt order. -/
theorem c8_backoff_monotone (resp : ℕ → HttpEvent) :
    (create_single_issue resp).sleeps.Pairwise (· ≤ ·) := by
  have hsub := submitLoop_sleeps_sublist resp MAX_RETRIES RETRY_DELAY
    (List.range MAX_RETRIES)
  have hsorted : ((List.range MAX_RETRIES).map
      (fun a => RETRY_DELAY * ((a : ℚ) + 1))).Pairwise (· ≤ ·) := by
    rw [show List.range MAX_RETRIES = [0, 1, 2] from rfl]
    norm_num [List.pairwise_cons, RETRY_DELAY]
  exact List.Pairwise.sublist hsub hsorted

theorem submitLoop_attempts_le (resp : ℕ → HttpEvent) (mr : ℕ) (rd : ℚ) :
    ∀ l : List ℕ, (submitLoop resp mr rd l).attempts ≤ l.length := by
  intro l
  induction l with
  | nil => simp [submitLoop]
  | cons a rest ih =>
    cases he : resp a with
    | status c =>
      by_cases h201 : c = 201
      · simp only [submitLoop, he, if_pos h201, List.length_cons]
        omega
      · by_cases hcond : c = 403 ∨ 500 ≤ c
        · simp only [submitLoop, he, if_neg h201, if_pos hcond,
            List.length_cons]
          omega
        · simp only [submitLoop, he, if_neg h201, if_neg hcond,
            List.length_cons]
          omega
    | exn =>
      by_cases h : a < mr - 1
      · simp only [submitLoop, he, if_pos h, List.length_cons]
        omega
      · simp only [submitLoop, he, if_neg h, List.length_cons]
        omega

theorem retryLoop_congr (g g' : ℕ → α → BatchOutcome β) :
    ∀ (rs : List ℕ) (rem : List α), (∀ r ∈ rs, g r = g' r) →
      retryLoop g rs rem = retryLoop g' rs rem := by
  intro rs
  induction rs with
  | nil => intro rem h; rfl
  | cons r rs ih =>
    intro rem h
    by_cases he : rem.isEmpty
    · simp [retryLoop, he]
    · simp only [retryLoop, if_neg he]
      rw [h r (List.mem_cons_self r rs),
        ih _ (fun r' hr' => h r' (List.mem_cons_of_mem r hr'))]

/-- C6 counterexample: an item answered `422` on every attempt — a
non-retryable client error that aborts the in-place retry loop after a
single attempt and a single HTTP request — is nevertheless submitted
again by retry round 1: `retry_failed_issues` receives every failed
item and never consults the failure's classification. -/
theorem c6_counterexample :
    create_single_issue (fun _ => .status 422) = ⟨false, 1, []⟩ ∧
    remainingBefore (fun _ _ => outcomeOfResp (fun _ => .status 422))
      ([0] : List ℕ) 1 = [0] := by
  have h : create_single_issue (fun _ => .status 422) = ⟨false, 1, []⟩ := by
    norm_num [create_single_issue, submitLoop, MAX_RETRIES, List.range_succ]
  refine ⟨h, ?_⟩
  have hg : outcomeOfResp (fun _ => .status 422) = BatchOutcome.failed := by
    unfold outcomeOfResp
    rw [h]
    simp
  show (create_issues_batch _ [0]).2 = [0]
  simp [create_issues_batch, hg]

/-- C6 amended: (i) no `create_single_issue` call makes more than
`MAX_RETRIES` HTTP attempts; (ii) the whole run consults the submission
outcomes of rounds `0..m` only, so no item sees more than `m` retry
rounds; (iii) a non-retryable classification (non-2xx, not 403, below
500 — e.g. 422) on the first attempt aborts the in-place loop at once
with no further in-place attempt and no sleep — but the item is then
still resubmitted by the retry rounds like any other failure. -/
theorem c6_retry_bounds_amended :
    (∀ resp : ℕ → HttpEvent,
        (create_single_issue resp).attempts ≤ MAX_RETRIES) ∧
    (∀ (γ δ : Type) (g g' : ℕ → γ → BatchOutcome δ) (m : ℕ) (items : List γ),
        (∀ r, r ≤ m → g r = g' r) →
        runPipeline g m items = runPipeline g' m items) ∧
    (∀ (resp : ℕ → HttpEvent) (c : ℕ), resp 0 = HttpEvent.status c →
        ¬(200 ≤ c ∧ c ≤ 299) → c ≠ 403 → c < 500 →
        create_single_issue resp = ⟨false, 1, []⟩) := by
  refine ⟨?_, ?_, ?_⟩
  · intro resp
    have h := submitLoop_attempts_le resp MAX_RETRIES RETRY_DELAY
      (List.range MAX_RETRIES)
    simpa [create_single_issue] using h
  · intro γ δ g g' m items h
    have h0 : g 0 = g' 0 := h 0 (Nat.zero_le m)
    have hloop : retryLoop g ((List.range m).map (· + 1))
        = retryLoop g' ((List.range m).map (· + 1)) := by
      funext rem
      apply retryLoop_congr
      intro r hr
      simp only [List.mem_map, List.mem_range] at hr
      obtain ⟨i, hi, rfl⟩ := hr
      exact h (i + 1) (by omega)
    simp only [runPipeline, retry_failed_issues, h0, hloop]
  · intro resp c h0 h2xx h403 h5xx
    have hc201 : ¬ c = 201 := by omega
    have hcond : ¬ (c = 403 ∨ 500 ≤ c) := by omega
    unfold create_single_issue
    rw [show List.range MAX_RETRIES = [0, 1, 2] from rfl]
    simp only [submitLoop, h0, if_neg hc201, if_neg hcond]

/-- Witness for the amended C6 at concrete inputs. -/
theorem c6_retry_bounds_amended_witness :
    (create_single_issue (fun _ => .exn)).attempts ≤ MAX_RETRIES ∧
    create_single_issue (fun _ => .status 422) = ⟨false, 1, []⟩ :=
  ⟨c6_retry_bounds_amended.1 (fun _ => .exn),
   c6_retry_bounds_amended.2.2 (fun _ => .status 422) 422 rfl (by decide)
     (by decide) (by decide)⟩

theorem batchRun_mem_ne_nil (l : List α) (b : ℕ) (hb : 0 < b)
    {chunk : List α} (hchunk : chunk ∈ batchRun l b) :
    chunk ≠ [] ∧ chunk.length ≤ b := by
  simp only [batchRun, batchSlices, List.mem_map, List.mem_range] at hchunk
  obtain ⟨k, hk, rfl⟩ := hchunk
  have hlt : k * b < l.length := mul_lt_of_lt_calculate_batches l.length b k hb hk
  constructor
  · intro hnil
    have h0 : ((l.drop (k * b)).take b).length = 0 := by rw [hnil]; rfl
    simp only [List.length_take, List.length_drop] at h0
    omega
  · simp only [List.length_take]
    omega

theorem batchDelayFlags_pos (k : ℕ) (hk : 0 < k) :
    batchDelayFlags k = false :: List.replicate (k - 1) true := by
  obtain ⟨j, rfl⟩ : ∃ j, k = j + 1 := ⟨k - 1, by omega⟩
  unfold batchDelayFlags
  rw [List.range_succ_eq_map, List.map_cons, List.map_map]
  have hcomp : preDelayInvoked ∘ Nat.succ = (fun _ : ℕ => true) := by
    funext i
    simp [Function.comp, preDelayInvoked]
  rw [hcomp, List.map_const', List.length_range]
  simp [preDelayInvoked]

example : runDelayFlags ([10, 20, 30] : List ℕ) 2 = [false, true, false] := by
  have h : calculate_batches 3 2 = 2 := by
    rw [calculate_batches_formula 3 2 (by norm_num)]
  have hlen : ([10, 20, 30] : List ℕ).length = 3 := rfl
  simp only [runDelayFlags, batchRun, hlen, h]
  decide

/-- C7 counterexample: with two items and batch size 1, the second item
is the first item of the second batch — not the very first item of the
very first batch — yet its pre-submission delay is skipped: the guard
`if index > 0` uses the position within the batch, so the first item of
every batch skips the delay. -/
theorem c7_counterexample :
    (runDelayFlags ([10, 20] : List ℕ) 1)[1]? = some false := by
  have h : calculate_batches 2 1 = 2 := by
    rw [calculate_batches_formula 2 1 (by norm_num)]
  have hlen : ([10, 20] : List ℕ).length = 2 := rfl
  simp only [runDelayFlags, batchRun, hlen, h]
  decide

/-- C7 amended: the pacing delay is invoked before every item except the
first item of each batch: every batch flag sequence is `false` for its
first item and `true` for all its remaining items. -/
theorem c7_amended_pace_delay (l : List α) (b : ℕ) (hb : 0 < b) :
    runDelayFlags l b
      = ((batchRun l b).map
          (fun chunk => false :: List.replicate (chunk.length - 1) true)).flatten := by
  unfold runDelayFlags
  congr 1
  apply List.map_congr_left
  intro chunk hchunk
  have hne := (batchRun_mem_ne_nil l b hb hchunk).1
  have hpos : 0 < chunk.length := List.length_pos.mpr hne
  exact batchDelayFlags_pos chunk.length hpos

/-- Witness for the amended C7: three items with batch size 2. -/
theorem c7_amended_pace_delay_witness :
    runDelayFlags ([10, 20, 30] : List ℕ) 2
      = ((batchRun ([10, 20, 30] : List ℕ) 2).map
          (fun chunk => false :: List.replicate (chunk.length - 1) true)).flatten :=
  c7_amended_pace_delay [10, 20, 30] 2 (by norm_num)

example : mainSummary 10 4 2 = ⟨0, true⟩ := by decide

example : mainSummary 10 0 0 = ⟨1, false⟩ := by decide

/-- C9: when the CSV inputs are non-empty but zero issues were created
over the whole run, the average-per-issue computation divides by zero,
the top-level handler catches the exception, `main` returns exit code 1
(not success) and the result file is not written. -/
theorem c9_zero_created_fails (t : ℚ) (total : ℕ) (h : 0 < total) :
    mainSummary t total 0 = ⟨1, false⟩ := by
  have h0 : ¬ total = 0 := by omega
  simp only [mainSummary, pyDiv, if_neg h0]
  rfl

/-- Witness for C9: 5 CSV rows, 0 created. -/
theorem c9_zero_created_fails_witness : mainSummary 10 5 0 = ⟨1, false⟩ :=
  c9_zero_created_fails 10 5 (by norm_num)

example :
    (prepare_issue_data
      [⟨"A", " b ", "", ""⟩, ⟨"タスク5: B", "", "x,y", "hard"⟩]
      ["task", "development"]).map (fun d => d.1.title)
      = ["タスク001: A", "タスク002: B"] := by decide

theorem prepareFrom_titles (issueType : String) (labels : List String) :
    ∀ (rows : List Row) (start : ℕ),
      (∀ row ∈ rows, pyStrip row.title ≠ "") →
      (prepareFrom issueType labels start rows).map (fun d => d.1.title)
        = (List.enumFrom start rows).map
            (fun p => typeTagOf issueType ++ pad3 p.1 ++ ": "
              ++ cleanedTitle (typeTagOf issueType) (pyStrip p.2.title)) := by
  intro rows
  induction rows with
  | nil => intro start h; rfl
  | cons row rest ih =>
    intro start h
    have hrow : ¬ pyStrip row.title = "" := h row (List.mem_cons_self _ _)
    show ((if pyStrip row.title = "" then _ else _) :
        List (IssueData × String)).map _ = _
    rw [if_neg hrow]
    simp only [List.enumFrom, List.map_cons]
    exact congrArg₂ List.cons rfl
      (ih (start + 1) (fun r hr => h r (List.mem_cons_of_mem _ hr)))

theorem remainingBefore_sublist (g : ℕ → α → BatchOutcome β)
    (items : List α) (r : ℕ) :
    List.Sublist (remainingBefore g items r) items := by
  rw [remainingBefore_filter]
  exact List.filter_sublist items

/-- C10: when every row of the input list has a non-empty stripped
title (as guaranteed by the CSV loader, which filters empty titles),
the `j`-th prepared request's title is exactly
`<tag><j-th 1-based position, zero-padded to 3>: <cleaned title>` — the
number is the row's position in the input list; and the request values
are computed once: every round of the run (the initial pass and every
retry round) submits a sublist of the prepared requests themselves, so
every retry resubmits the identical request body. -/
theorem c10_numbered_titles_immutable (issues : List Row)
    (labels : List String) (h : ∀ row ∈ issues, pyStrip row.title ≠ "") :
    ((prepare_issue_data issues labels).map (fun d => d.1.title)
      = (List.enumFrom 1 issues).map
          (fun p => typeTagOf (issueTypeOf labels) ++ pad3 p.1 ++ ": "
            ++ cleanedTitle (typeTagOf (issueTypeOf labels))
                (pyStrip p.2.title))) ∧
    (∀ (δ : Type) (g : ℕ → (IssueData × String) → BatchOutcome δ) (r : ℕ),
      List.Sublist (remainingBefore g (prepare_issue_data issues labels) r)
        (prepare_issue_data issues labels)) :=
  ⟨prepareFrom_titles (issueTypeOf labels) labels issues 1 h,
   fun δ g r => remainingBefore_sublist g (prepare_issue_data issues labels) r⟩

/-- Witness for C10: two task rows, one already carrying a number that
is replaced by its position. -/
theorem c10_numbered_titles_immutable_witness :
    (prepare_issue_data
      [⟨"A", "b", "", ""⟩, ⟨"タスク5: B", "", "x,y", "hard"⟩]
      ["task", "development"]).map (fun d => d.1.title)
      = ["タスク001: A", "タスク002: B"] := by
  rw [(c10_numbered_titles_immutable
    [⟨"A", "b", "", ""⟩, ⟨"タスク5: B", "", "x,y", "hard"⟩]
    ["task", "development"] (by decide)).1]
  decide
